import Mathlib

/-!
TroykaButton: a debounced single-button state tracker.

Shallow embedding of the current variant of the library
(`src/src/TroykaButton.h`, `src/src/TroykaButton.cpp`), in namespace
`TroykaButton`, and of the legacy variant (`src/TroykaButton.h`,
`src/TroykaButton.cpp`), in namespace `TroykaButtonLegacy`.

Modelling conventions.

* The object is a record of its data members; every member function is a
  function from the record (plus what it reads from the outside world) to the
  new record, and a function that changes the object and returns `bool` returns
  a pair.
* `millis()` is an input: one call of `read()` is given the clock reading `now`,
  and every `millis()` evaluated during that call yields `now`.
* `digitalRead(_pin) == HIGH` is an input: the boolean `high`.
* `unsigned long` and `uint32_t` are 32 bits wide on the target; they are
  natural numbers here and the one arithmetic operation of the code, the
  unsigned subtraction, is taken modulo `2 ^ 32` (`sub32`).
* `pinMode` acts on the pin hardware only, so the current `begin()` leaves the
  record alone and the legacy `begin()` only clears `_msButtonState`.
* The legacy constructor leaves four members unassigned; it is given the
  content of the storage it is run on.
-/

/-- The private enumeration `TroykaButton::_State`. -/
inductive TroykaButton._State where
  | stReleased
  | stPressed
  | stLongHold
  deriving DecidableEq, Repr

/-- The data members of `class TroykaButton`, in declaration order. -/
structure TroykaButton where
  /-- pin number (`const uint8_t`) -/
  _pin : Nat
  /-- long-hold time in ms (`uint32_t`) -/
  _timeHold : Nat
  /-- pull-up selection (`const bool`) -/
  _pullUP : Bool
  /-- remembered electrical pin state, corrected for `_pullUP` -/
  _pinState : Bool
  /-- clock reading at which `_pinState` was stored (`unsigned long`) -/
  _tmPinState : Nat
  /-- true while the debounce interval is running -/
  _isDebounceTimeoutActive : Bool
  /-- current logical state of the button -/
  _state : TroykaButton._State
  /-- previous logical state (read by `isClick()` only) -/
  _prevState : TroykaButton._State
  /-- true when `_state` changed and no `justXxx()` / `isClick()` reported it yet -/
  _isStateDirty : Bool
  /-- clock reading of the last update of `_state` (`unsigned long`) -/
  _tmState : Nat
  deriving DecidableEq, Repr

namespace TroykaButton

open _State

/-- Debounce time in ms: `#define DEBOUNCE_TIME 50`. -/
def DEBOUNCE_TIME : Nat := 50

/-- Number of values of a 32-bit unsigned integer. -/
def W32 : Nat := 2 ^ 32

/-- Unsigned 32-bit subtraction `a - b`, wrapping modulo `2 ^ 32`. -/
def sub32 (a b : Nat) : Nat := (a + (W32 - b % W32)) % W32

/-- The body of `_readPinState()`: `(digitalRead(_pin) == HIGH) != _pullUP`. -/
def _readPinState (self : TroykaButton) (high : Bool) : Bool :=
  high != self._pullUP

/-- The body of `_updatePinState(newPinState)`. -/
def _updatePinState (self : TroykaButton) (newPinState : Bool) (now : Nat) : TroykaButton :=
  { self with _pinState := newPinState, _tmPinState := now }

/-- The body of `_updateState(newState)`. -/
def _updateState (self : TroykaButton) (newState : _State) (now : Nat) : TroykaButton :=
  { self with _prevState := self._state, _state := newState, _isStateDirty := true,
              _tmState := now }

/-- The body of `_resetObject()`: every state member is set, the three
initialisation members are kept. -/
def _resetObject (self : TroykaButton) : TroykaButton :=
  { self with _pinState := false, _tmPinState := 0, _isDebounceTimeoutActive := false,
              _state := stReleased, _prevState := stReleased, _isStateDirty := false,
              _tmState := 0 }

/-- The constructor `TroykaButton(pin, timeHold, pullUP)`: the member
initialiser list sets the three initialisation members and the body calls
`_resetObject()`, which assigns all the others (their values before that call
are indeterminate in C++ and are overwritten). -/
def ctor (pin timeHold : Nat) (pullUP : Bool) : TroykaButton :=
  _resetObject
    { _pin := pin, _timeHold := timeHold, _pullUP := pullUP,
      _pinState := false, _tmPinState := 0, _isDebounceTimeoutActive := false,
      _state := stReleased, _prevState := stReleased, _isStateDirty := false,
      _tmState := 0 }

/-- First statement of `read()`: the long-hold check, done before the pin is
sampled. -/
def readHold (self : TroykaButton) (now : Nat) : TroykaButton :=
  if self._state = stPressed ∧ sub32 now self._tmState ≥ self._timeHold then
    _updateState self stLongHold now
  else
    self

/-- The rest of `read()`: sampling the pin and the debounce logic. -/
def readPin (self : TroykaButton) (now : Nat) (high : Bool) : TroykaButton :=
  let currentPinState := _readPinState self high
  if currentPinState ≠ self._pinState then
    _updatePinState { self with _isDebounceTimeoutActive := true } currentPinState now
  else
    if self._isDebounceTimeoutActive = true ∧ sub32 now self._tmPinState ≥ DEBOUNCE_TIME then
      let s := { self with _isDebounceTimeoutActive := false }
      let newState := if s._pinState = true then stPressed else stReleased
      match s._state with
      | stReleased =>
        if newState = stReleased then s else _updateState s newState now
      | stPressed =>
        if newState = stPressed then s else _updateState s newState now
      | stLongHold =>
        if newState = stPressed then s else _updateState s newState now
    else
      self

/-- The member function `read()`. -/
def read (self : TroykaButton) (now : Nat) (high : Bool) : TroykaButton :=
  readPin (readHold self now) now high

/-- The member function `isClick()`. -/
def isClick (self : TroykaButton) : Bool × TroykaButton :=
  if self._state = stReleased ∧ self._isStateDirty = true ∧ self._prevState = stPressed then
    (true, { self with _isStateDirty := false })
  else
    (false, self)

/-- The member function `_justXxxInner(stateToTest)`. -/
def _justXxxInner (self : TroykaButton) (stateToTest : _State) : Bool × TroykaButton :=
  if self._state = stateToTest ∧ self._isStateDirty = true then
    (true, { self with _isStateDirty := false })
  else
    (false, self)

/-- The member function `begin()`: `pinMode(_pin, INPUT)`. -/
def begin (self : TroykaButton) : TroykaButton := self

/-- The member function `reinit()`. -/
def reinit (self : TroykaButton) (now : Nat) (high : Bool) : TroykaButton :=
  read (begin (_resetObject self)) now high

/-- The member function `setTimeHold(newTimeHold)`. -/
def setTimeHold (self : TroykaButton) (newTimeHold : Nat) : TroykaButton :=
  { self with _timeHold := newTimeHold }

/-- The member function `justPressed()`. -/
def justPressed (self : TroykaButton) : Bool × TroykaButton := _justXxxInner self stPressed

/-- The member function `justReleased()`. -/
def justReleased (self : TroykaButton) : Bool × TroykaButton := _justXxxInner self stReleased

/-- The member function `justHeld()`. -/
def justHeld (self : TroykaButton) : Bool × TroykaButton := _justXxxInner self stLongHold

/-- The member function `isPressed()`. -/
def isPressed (self : TroykaButton) : Bool :=
  self._state = stPressed || self._state = stLongHold

/-- The member function `isReleased()`. -/
def isReleased (self : TroykaButton) : Bool := self._state = stReleased

/-- The member function `isHold()`. -/
def isHold (self : TroykaButton) : Bool := self._state = stLongHold

/-- A series of polls: `read()` is called once per entry, with the clock
reading and the electrical level of that call. -/
def runReads (self : TroykaButton) : List (Nat × Bool) → TroykaButton
  | [] => self
  | (now, high) :: rest => runReads (read self now high) rest

/-- Every poll of the series either samples a level different from the
remembered one or comes less than `DEBOUNCE_TIME` after the remembered level was
stored. -/
def bounceOnly (self : TroykaButton) : List (Nat × Bool) → Bool
  | [] => true
  | (now, high) :: rest =>
    (decide (_readPinState self high ≠ self._pinState) ||
      decide (sub32 now self._tmPinState < DEBOUNCE_TIME)) &&
    bounceOnly (read self now high) rest

/-- The calls of the public interface that can change the object. -/
inductive Op where
  | read (now : Nat) (high : Bool)
  | reinit (now : Nat) (high : Bool)
  | setTimeHold (newTimeHold : Nat)
  | begin
  | justPressed
  | justReleased
  | justHeld
  | isClick
  deriving DecidableEq, Repr

/-- The object after one call. -/
def Op.apply (self : TroykaButton) : Op → TroykaButton
  | .read now high => TroykaButton.read self now high
  | .reinit now high => TroykaButton.reinit self now high
  | .setTimeHold t => TroykaButton.setTimeHold self t
  | .begin => TroykaButton.begin self
  | .justPressed => (TroykaButton.justPressed self).2
  | .justReleased => (TroykaButton.justReleased self).2
  | .justHeld => (TroykaButton.justHeld self).2
  | .isClick => (TroykaButton.isClick self).2

/-- The object after a series of calls, in order. -/
def runOps (self : TroykaButton) : List Op → TroykaButton
  | [] => self
  | op :: rest => runOps (Op.apply self op) rest

/-- The two rows of the transition table that constrain `_prevState`:
`stLongHold` is entered from `stPressed` and `stPressed` from `stReleased`. -/
def tableInv (self : TroykaButton) : Prop :=
  (self._state = stLongHold → self._prevState = stPressed) ∧
  (self._state = stPressed → self._prevState = stReleased)

instance (self : TroykaButton) : Decidable (tableInv self) := by
  unfold tableInv
  infer_instance

/-- Example object: constructed on pin 4 with the default arguments, then polled
once at time 0 with the pin electrically low (active under pull-up). -/
def exArmed : TroykaButton := read (ctor 4 2000 true) 0 false

/-- Example object: `exArmed` polled again at time 60 with the pin still low. -/
def exPressed : TroykaButton := read exArmed 60 false

/-- Example object: `exPressed` after a short opening of the contacts (high at
time 62, low again at time 65). -/
def exGlitch : TroykaButton := runReads exPressed [(62, true), (65, false)]

/-- Example object: `exPressed` after the pin went high at time 100 and was
polled again at time 160. -/
def exClick : TroykaButton := runReads exPressed [(100, true), (160, true)]

/-- The object with its two stored clock readings moved forward by `k` ms on
the 32-bit counter. -/
def shiftClock (k : Nat) (self : TroykaButton) : TroykaButton :=
  { self with _tmPinState := (self._tmPinState + k) % W32,
              _tmState := (self._tmState + k) % W32 }

/-- Every poll of the series samples the level the object remembers. -/
def steadyOnly (self : TroykaButton) (polls : List (Nat × Bool)) : Bool :=
  polls.all fun p => _readPinState self p.2 == self._pinState

/-- The call is `setTimeHold()`. -/
def Op.isSetTimeHold : Op → Bool
  | .setTimeHold _ => true
  | _ => false

/-- With a zero hold time: the threshold is zero, and a pending release was
entered from `stLongHold`. -/
def zeroHoldInv (self : TroykaButton) : Prop :=
  self._timeHold = 0 ∧
  (self._state = stReleased → self._isStateDirty = true → self._prevState = stLongHold)

/-- Scenario object: constructed with threshold 2000 ms and pull-up, then polled
with the pin low (active under pull-up) at 0 ms and at 60 ms. -/
def scPressed (pin : Nat) : TroykaButton :=
  runOps (ctor pin 2000 true) [Op.read 0 false, Op.read 60 false]

/-- Scenario object: `scPressed` after `justPressed()` was called and the pin was
polled low at 2100 ms. -/
def scHeld (pin : Nat) : TroykaButton :=
  runOps (scPressed pin) [Op.justPressed, Op.read 2100 false]

/-- Scenario object: `scHeld` after `justHeld()` was called and the pin was
polled high at 2150 ms and at 2210 ms. -/
def scReleased (pin : Nat) : TroykaButton :=
  runOps (scHeld pin) [Op.justHeld, Op.read 2150 true, Op.read 2210 true]

/-- Example object: `exPressed` with both stored clock readings moved forward by
`2 ^ 32 - 100` ms, so that `_tmState` is `2 ^ 32 - 40`, just before the counter
wraps. -/
def exWrapped : TroykaButton := shiftClock 4294967196 exPressed

/-- The polls of a glitch on a pressed button: pin high at 62 ms, low again at
65 ms, and polled low at 110, 115 and 120 ms. -/
def glitchPolls : List (Nat × Bool) :=
  [(62, true), (65, false), (110, false), (115, false), (120, false)]

/-- Scenario object: `scPressed` after `justPressed()` was called and the first
`n` polls of `glitchPolls` were made. -/
def scGlitch (pin n : Nat) : TroykaButton :=
  runReads (runOps (scPressed pin) [Op.justPressed]) (glitchPolls.take n)

end TroykaButton

/-- The data members of the legacy `class TroykaButton` (`src/TroykaButton.h`),
in declaration order. -/
structure TroykaButtonLegacy where
  /-- pin number (`uint8_t`) -/
  _pin : Nat
  /-- long-hold time in ms (`uint32_t`) -/
  _timeHold : Nat
  /-- pull-up selection -/
  _pullUP : Bool
  /-- reported button state (`uint8_t`): 0, `ON_PRESS`, `ON_PRESS_LONG` or `ON_RELEASE` -/
  _stateButton : Nat
  /-- level of the button at the previous `read()` -/
  _buttonStateWas : Bool
  /-- a long press has been reported for the current press -/
  _buttonStateNowLong : Bool
  /-- clock reading of the last reported event (`uint32_t`) -/
  _msButtonState : Nat
  deriving DecidableEq, Repr

namespace TroykaButtonLegacy

/-- Debounce time in ms: `#define DEBOUNCE_TIME 50`. -/
def DEBOUNCE_TIME : Nat := 50

/-- Reported state `#define ON_PRESS 1`. -/
def ON_PRESS : Nat := 1

/-- Reported state `#define ON_PRESS_LONG 2`. -/
def ON_PRESS_LONG : Nat := 2

/-- Reported state `#define ON_RELEASE 3`. -/
def ON_RELEASE : Nat := 3

/-- The legacy constructor: it assigns `_pin`, `_timeHold` and `_pullUP` and
nothing else, so the other members keep what the storage `mem` held (zeros for
an object with static storage). -/
def ctor (mem : TroykaButtonLegacy) (pin timeHold : Nat) (pullUP : Bool) :
    TroykaButtonLegacy :=
  { mem with _pin := pin, _timeHold := timeHold, _pullUP := pullUP }

/-- Zero-initialised storage, as for an object defined at namespace scope. -/
def zeroMem : TroykaButtonLegacy :=
  { _pin := 0, _timeHold := 0, _pullUP := false, _stateButton := 0,
    _buttonStateWas := false, _buttonStateNowLong := false, _msButtonState := 0 }

/-- The legacy `begin()`: `pinMode(_pin, INPUT); _msButtonState = 0;`. -/
def begin (self : TroykaButtonLegacy) : TroykaButtonLegacy :=
  { self with _msButtonState := 0 }

/-- The local `buttonStateNow` of the legacy `read()`:
`!digitalRead(_pin)`, negated again when `!_pullUP`. -/
def buttonStateNow (self : TroykaButtonLegacy) (high : Bool) : Bool :=
  let b := !high
  if (!self._pullUP) = true then !b else b

/-- The legacy `read()`; `now` is the value of `millis()` and `high` the value
of `digitalRead(_pin)` during the call. -/
def read (self : TroykaButtonLegacy) (now : Nat) (high : Bool) : TroykaButtonLegacy :=
  let s0 := { self with _stateButton := 0 }
  let b := buttonStateNow s0 high
  let s1 :=
    if b = true ∧ b ≠ s0._buttonStateWas ∧
        TroykaButton.sub32 now s0._msButtonState > DEBOUNCE_TIME then
      { s0 with _buttonStateNowLong := false, _msButtonState := now, _stateButton := ON_PRESS }
    else s0
  let s2 :=
    if (!b) = true ∧ b ≠ s1._buttonStateWas ∧ (!s1._buttonStateNowLong) = true ∧
        s1._timeHold ≠ 0 ∧ TroykaButton.sub32 now s1._msButtonState > DEBOUNCE_TIME then
      { s1 with _msButtonState := now, _stateButton := ON_RELEASE }
    else s1
  let s3 :=
    if b = true ∧ (!s2._buttonStateNowLong) = true ∧
        TroykaButton.sub32 now s2._msButtonState > s2._timeHold then
      { s2 with _buttonStateNowLong := true, _msButtonState := now,
                _stateButton := ON_PRESS_LONG }
    else s2
  { s3 with _buttonStateWas := b }

/-- The legacy `justPressed()`. -/
def justPressed (self : TroykaButtonLegacy) : Bool := self._stateButton == ON_PRESS

/-- The legacy `justReleased()`. -/
def justReleased (self : TroykaButtonLegacy) : Bool := self._stateButton == ON_RELEASE

/-- The legacy `isHold()`. -/
def isHold (self : TroykaButtonLegacy) : Bool := self._stateButton == ON_PRESS_LONG

/-- A series of legacy polls, one `read()` per entry. -/
def runReads (self : TroykaButtonLegacy) : List (Nat × Bool) → TroykaButtonLegacy
  | [] => self
  | (now, high) :: rest => runReads (read self now high) rest

/-- Example legacy object: static storage, constructed on pin 4 with hold time 0
and pull-up, `begin()` called, then polled at 100 ms with the pin low. -/
def exZeroPressed : TroykaButtonLegacy := read (begin (ctor zeroMem 4 0 true)) 100 false

end TroykaButtonLegacy

namespace TroykaButton

open _State

/-- C1: for every pin, hold threshold and pull-up flag the constructed tracker
is in the baseline (state `stReleased`, debounce timeout inactive, remembered
pin state `false`, nothing pending), so `isReleased()` is true, `isPressed()`
and `isHold()` are false, and `justPressed()`, `justReleased()`, `justHeld()`
and `isClick()` all return false before any poll. -/
theorem ctor_baseline (pin timeHold : Nat) (pullUP : Bool) :
    (ctor pin timeHold pullUP)._state = stReleased ∧
    (ctor pin timeHold pullUP)._isDebounceTimeoutActive = false ∧
    (ctor pin timeHold pullUP)._pinState = false ∧
    (ctor pin timeHold pullUP)._isStateDirty = false ∧
    isReleased (ctor pin timeHold pullUP) = true ∧
    isPressed (ctor pin timeHold pullUP) = false ∧
    isHold (ctor pin timeHold pullUP) = false ∧
    (justPressed (ctor pin timeHold pullUP)).1 = false ∧
    (justReleased (ctor pin timeHold pullUP)).1 = false ∧
    (justHeld (ctor pin timeHold pullUP)).1 = false ∧
    (isClick (ctor pin timeHold pullUP)).1 = false := by
  simp [ctor, _resetObject, isReleased, isPressed, isHold, justPressed, justReleased,
    justHeld, _justXxxInner, isClick]

/-- The long-hold check fires: the state is updated to `stLongHold`. -/
theorem readHold_pos (s : TroykaButton) (now : Nat)
    (h : s._state = stPressed ∧ s._timeHold ≤ sub32 now s._tmState) :
    readHold s now = _updateState s stLongHold now := if_pos h

/-- The long-hold check does not fire: nothing changes. -/
theorem readHold_neg (s : TroykaButton) (now : Nat)
    (h : ¬ (s._state = stPressed ∧ s._timeHold ≤ sub32 now s._tmState)) :
    readHold s now = s := if_neg h

/-- The long-hold check touches neither the configuration nor the debounce filter. -/
theorem readHold_filter (s : TroykaButton) (now : Nat) :
    (readHold s now)._pin = s._pin ∧ (readHold s now)._timeHold = s._timeHold ∧
    (readHold s now)._pullUP = s._pullUP ∧ (readHold s now)._pinState = s._pinState ∧
    (readHold s now)._tmPinState = s._tmPinState ∧
    (readHold s now)._isDebounceTimeoutActive = s._isDebounceTimeoutActive := by
  unfold readHold
  split <;> simp [_updateState]

/-- The debounce branch of `read()` when the stable level is committed. -/
theorem readPin_stable (s : TroykaButton) (now : Nat) (high : Bool)
    (hact : s._isDebounceTimeoutActive = true)
    (hsame : _readPinState s high = s._pinState)
    (hwin : 50 ≤ sub32 now s._tmPinState) :
    readPin s now high =
      if (s._pinState = true ↔ s._state ≠ stReleased) then
        { s with _isDebounceTimeoutActive := false }
      else
        _updateState { s with _isDebounceTimeoutActive := false }
          (if s._pinState = true then stPressed else stReleased) now := by
  obtain ⟨pin, th, pu, ps, tps, act, st, prev, dirty, tms⟩ := s
  simp only at hact hsame hwin
  subst hact
  have hwin2 : sub32 now tps ≥ DEBOUNCE_TIME := hwin
  cases ps <;> cases st <;> simp [readPin, hsame, hwin2]

/-- C2: when the debounce timeout is active, the sampled level equals the
remembered one, at least 50 ms passed since it was stored, and the level's
family differs from the family of the state left by the long-hold check, the
poll commits the transition: `_prevState` is the state held just before the
commit, `_state` is `stPressed` for an active level and `stReleased` for an
inactive one, `_tmState = now`, the dirty flag is set and the debounce timeout
is inactive. -/
theorem read_commit (s : TroykaButton) (now : Nat) (high : Bool)
    (hact : s._isDebounceTimeoutActive = true)
    (hsame : _readPinState s high = s._pinState)
    (hwin : 50 ≤ sub32 now s._tmPinState)
    (hfam : (s._pinState = true ∧ s._state = stReleased) ∨
      (s._pinState = false ∧
        ((readHold s now)._state = stPressed ∨ (readHold s now)._state = stLongHold))) :
    (read s now high)._prevState = (readHold s now)._state ∧
    (read s now high)._state = (if s._pinState = true then stPressed else stReleased) ∧
    (read s now high)._tmState = now ∧
    (read s now high)._isStateDirty = true ∧
    (read s now high)._isDebounceTimeoutActive = false := by
  obtain ⟨_, _, hpu, hps, htps, hda⟩ := readHold_filter s now
  have hsame2 : _readPinState (readHold s now) high = (readHold s now)._pinState := by
    simpa [_readPinState, hpu, hps] using hsame
  rw [read, readPin_stable _ now high (hda.trans hact) hsame2 (htps ▸ hwin), hps]
  rcases hfam with ⟨h1, h2⟩ | ⟨h1, h2⟩
  · have h3 : (readHold s now)._state = stReleased := by
      rw [readHold_neg s now (by simp [h2]), h2]
    simp [h1, h3, _updateState]
  · rcases h2 with h2 | h2 <;> simp [h1, h2, _updateState]

/-- C3: suppression rule. When the debounce timeout is active, the sampled
level equals the remembered one, at least 50 ms passed since it was stored and
the confirmed level is in the family of the current state, the poll records no
transition: the object is what the long-hold check left, with only the debounce
timeout deactivated (and it is the object before the poll with the timeout
deactivated when the long-hold check did not fire). -/
theorem read_suppress (s : TroykaButton) (now : Nat) (high : Bool)
    (hact : s._isDebounceTimeoutActive = true)
    (hsame : _readPinState s high = s._pinState)
    (hwin : 50 ≤ sub32 now s._tmPinState)
    (hfam : (s._pinState = false ∧ s._state = stReleased) ∨
      (s._pinState = true ∧ (s._state = stPressed ∨ s._state = stLongHold))) :
    read s now high = { readHold s now with _isDebounceTimeoutActive := false } ∧
    (read s now high)._state = (readHold s now)._state ∧
    (read s now high)._prevState = (readHold s now)._prevState ∧
    (read s now high)._tmState = (readHold s now)._tmState ∧
    (read s now high)._isStateDirty = (readHold s now)._isStateDirty ∧
    (read s now high)._isDebounceTimeoutActive = false ∧
    (¬ (s._state = stPressed ∧ s._timeHold ≤ sub32 now s._tmState) →
      read s now high = { s with _isDebounceTimeoutActive := false }) := by
  obtain ⟨_, _, hpu, hps, htps, hda⟩ := readHold_filter s now
  have hsame2 : _readPinState (readHold s now) high = (readHold s now)._pinState := by
    simpa [_readPinState, hpu, hps] using hsame
  have key : read s now high = { readHold s now with _isDebounceTimeoutActive := false } := by
    rw [read, readPin_stable _ now high (hda.trans hact) hsame2 (htps ▸ hwin), hps]
    rcases hfam with ⟨h1, h2⟩ | ⟨h1, h2⟩
    · have h3 : (readHold s now)._state = stReleased := by
        rw [readHold_neg s now (by simp [h2]), h2]
      simp [h1, h3, hps]
    · have h3 : (readHold s now)._state ≠ stReleased := by
        unfold readHold
        split
        · simp [_updateState]
        · rcases h2 with h2 | h2 <;> simp [h2]
      simp [h1, h3, hps]
  refine ⟨key, ?_, ?_, ?_, ?_, ?_, ?_⟩
  · rw [key]
  · rw [key]
  · rw [key]
  · rw [key]
  · rw [key]
  · intro hesc
    rw [key, readHold_neg s now hesc]

/-- The debounce branch leaves the logical state alone when the sampled level
changed or the debounce time has not passed. -/
theorem readPin_state_of_bounce (t : TroykaButton) (now : Nat) (high : Bool)
    (h : _readPinState t high ≠ t._pinState ∨ sub32 now t._tmPinState < DEBOUNCE_TIME) :
    (readPin t now high)._state = t._state := by
  unfold readPin
  rcases h with h | h
  · simp [h, _updatePinState]
  · have h2 : ¬ (t._isDebounceTimeoutActive = true ∧ sub32 now t._tmPinState ≥ DEBOUNCE_TIME) :=
      fun hc => absurd hc.2 (Nat.not_le.mpr h)
    simp only [if_neg h2]
    split <;> simp [_updatePinState]

/-- A poll that samples a changed level, or comes before the debounce time has
passed, leaves the logical state as the long-hold check left it. -/
theorem read_state_of_bounce (s : TroykaButton) (now : Nat) (high : Bool)
    (h : _readPinState s high ≠ s._pinState ∨ sub32 now s._tmPinState < DEBOUNCE_TIME) :
    (read s now high)._state = (readHold s now)._state := by
  obtain ⟨_, _, hpu, hps, htps, _⟩ := readHold_filter s now
  apply readPin_state_of_bounce
  rcases h with h | h
  · left; simpa [_readPinState, hpu, hps] using h
  · right; rw [htps]; exact h

/-- The long-hold check either keeps the logical state or takes `stPressed` to
`stLongHold`. -/
theorem readHold_state (s : TroykaButton) (now : Nat) :
    (readHold s now)._state = s._state ∨
      (s._state = stPressed ∧ (readHold s now)._state = stLongHold) := by
  unfold readHold
  split
  · next h => right; exact ⟨h.1, rfl⟩
  · left; rfl

/-- C4: pure bounce rejection. Over a series of polls each of which samples a
level different from the remembered one or comes less than 50 ms after the
remembered level was stored, the family of the logical state never changes:
`isPressed()` (and so `isReleased()`) is the same after the series as before,
and the state itself is either unchanged or went from `stPressed` to
`stLongHold` by the time-based escalation. -/
theorem runReads_bounceOnly (polls : List (Nat × Bool)) (s : TroykaButton)
    (h : bounceOnly s polls = true) :
    isPressed (runReads s polls) = isPressed s ∧
    isReleased (runReads s polls) = isReleased s ∧
    ((runReads s polls)._state = s._state ∨
      (s._state = stPressed ∧ (runReads s polls)._state = stLongHold)) := by
  have key : (runReads s polls)._state = s._state ∨
      (s._state = stPressed ∧ (runReads s polls)._state = stLongHold) := by
    induction polls generalizing s with
    | nil => left; rfl
    | cons p rest ih =>
      obtain ⟨now, high⟩ := p
      simp only [bounceOnly, Bool.and_eq_true, Bool.or_eq_true, decide_eq_true_eq] at h
      have h1 := read_state_of_bounce s now high h.1
      have h2 := readHold_state s now
      have h3 := ih (read s now high) h.2
      simp only [runReads]
      rw [h1] at h3
      rcases h3 with h3 | ⟨h3, h4⟩
      · rw [h3]; exact h2
      · rcases h2 with h2 | ⟨h2, h5⟩
        · right; exact ⟨h2 ▸ h3, h4⟩
        · rw [h5] at h3; exact absurd h3 (by decide)
  refine ⟨?_, ?_, key⟩
  · rcases key with k | ⟨k1, k2⟩
    · simp [isPressed, k]
    · simp [isPressed, k1, k2]
  · rcases key with k | ⟨k1, k2⟩
    · simp [isReleased, k]
    · simp [isReleased, k1, k2]

/-- C5: long-hold escalation. In state `stPressed`, a poll at which at least
`_timeHold` ms passed since `_tmState` and whose sampled level is active leaves
`_state = stLongHold`, `_prevState = stPressed`, `_tmState = now` and the dirty
flag set, whatever the debounce filter holds. -/
theorem read_longHold (s : TroykaButton) (now : Nat) (high : Bool)
    (hst : s._state = stPressed)
    (hth : s._timeHold ≤ sub32 now s._tmState)
    (hlvl : _readPinState s high = true) :
    (read s now high)._state = stLongHold ∧
    (read s now high)._prevState = stPressed ∧
    (read s now high)._tmState = now ∧
    (read s now high)._isStateDirty = true := by
  obtain ⟨pin, th, pu, ps, tps, act, st, prev, dirty, tms⟩ := s
  simp only at hst hth
  subst hst
  rw [read, readHold_pos _ _ ⟨rfl, hth⟩]
  simp only [_readPinState] at hlvl
  simp only [readPin, _updateState, _updatePinState, _readPinState, hlvl]
  cases ps <;> simp
  split <;> simp

/-- C6: single-consumption edge queries. `justPressed()`, `justReleased()` and
`justHeld()` are `_justXxxInner` at `stPressed`, `stReleased` and `stLongHold`;
the query for state `X` returns true exactly when `_state = X` and the dirty
flag is set; when it returns true it clears the dirty flag and changes nothing
else, and then every edge query returns false and leaves the object as it is;
when it returns false the object is unchanged. -/
theorem justXxx_single_consumption (s : TroykaButton) (X : _State) :
    (justPressed s = _justXxxInner s stPressed ∧
      justReleased s = _justXxxInner s stReleased ∧
      justHeld s = _justXxxInner s stLongHold) ∧
    ((_justXxxInner s X).1 = true ↔ (s._state = X ∧ s._isStateDirty = true)) ∧
    ((_justXxxInner s X).1 = true →
      (_justXxxInner s X).2 = { s with _isStateDirty := false } ∧
      ∀ Y : _State,
        _justXxxInner (_justXxxInner s X).2 Y = (false, (_justXxxInner s X).2)) ∧
    ((_justXxxInner s X).1 = false → (_justXxxInner s X).2 = s) := by
  refine ⟨⟨rfl, rfl, rfl⟩, ?_, ?_, ?_⟩
  · unfold _justXxxInner
    split <;> simp_all
  · unfold _justXxxInner
    split
    · intro _
      refine ⟨rfl, fun Y => ?_⟩
      simp
    · intro h
      simp at h
  · unfold _justXxxInner
    split
    · intro h
      simp at h
    · intro _
      rfl

/-- C7: short click. `isClick()` returns true exactly when `_state = stReleased`,
the dirty flag is set and `_prevState = stPressed`; when it returns true it
clears the dirty flag (so an immediate second `isClick()` returns false and
changes nothing); when it returns false the object is unchanged; and for a
pending release that follows a long hold `isClick()` returns false while
`justReleased()` returns true. -/
theorem isClick_short_click (s : TroykaButton) :
    ((isClick s).1 = true ↔
      (s._state = stReleased ∧ s._isStateDirty = true ∧ s._prevState = stPressed)) ∧
    ((isClick s).1 = true →
      (isClick s).2 = { s with _isStateDirty := false } ∧
      isClick (isClick s).2 = (false, (isClick s).2)) ∧
    ((isClick s).1 = false → (isClick s).2 = s) ∧
    ((s._state = stReleased ∧ s._isStateDirty = true ∧ s._prevState = stLongHold) →
      (isClick s).1 = false ∧ (justReleased s).1 = true) := by
  refine ⟨?_, ?_, ?_, ?_⟩
  · unfold isClick
    split <;> simp_all
  · unfold isClick
    split
    · intro _
      refine ⟨rfl, ?_⟩
      simp
    · intro h
      simp at h
  · unfold isClick
    split
    · intro h
      simp at h
    · intro _
      rfl
  · rintro ⟨h1, h2, h3⟩
    simp [isClick, justReleased, _justXxxInner, h1, h2, h3]

/-- C8: mutual exclusion of `isClick()` and `justReleased()`. With
`_state = stReleased`, `_prevState = stPressed` and the dirty flag set,
`isClick()` then `justReleased()` return true then false, and `justReleased()`
then `isClick()` return true then false. -/
theorem isClick_justReleased_exclusive (s : TroykaButton)
    (hst : s._state = stReleased) (hprev : s._prevState = stPressed)
    (hdirty : s._isStateDirty = true) :
    (isClick s).1 = true ∧ (justReleased (isClick s).2).1 = false ∧
    (justReleased s).1 = true ∧ (isClick (justReleased s).2).1 = false := by
  simp [isClick, justReleased, _justXxxInner, hst, hprev, hdirty]

/-- The constructed object satisfies the transition-table invariant. -/
theorem tableInv_resetObject (s : TroykaButton) : tableInv (_resetObject s) := by
  simp [tableInv, _resetObject]

/-- The long-hold check preserves the transition-table invariant. -/
theorem tableInv_readHold (s : TroykaButton) (now : Nat) (h : tableInv s) :
    tableInv (readHold s now) := by
  unfold readHold
  split
  · next hc => simp [tableInv, _updateState, hc.1]
  · exact h

/-- The debounce branch preserves the transition-table invariant. -/
theorem tableInv_readPin (s : TroykaButton) (now : Nat) (high : Bool) (h : tableInv s) :
    tableInv (readPin s now high) := by
  obtain ⟨pin, th, pu, ps, tps, act, st, prev, dirty, tms⟩ := s
  simp only [tableInv] at h
  by_cases hc : (high != pu) = ps
  · by_cases hw : act = true ∧ sub32 now tps ≥ DEBOUNCE_TIME
    · cases st <;> cases ps <;>
        simp_all [tableInv, readPin, _readPinState, _updateState]
    · simpa [tableInv, readPin, _readPinState, hc, hw] using h
  · simpa [tableInv, readPin, _readPinState, _updatePinState, hc] using h

/-- The member function `read()` preserves the transition-table invariant. -/
theorem tableInv_read (s : TroykaButton) (now : Nat) (high : Bool) (h : tableInv s) :
    tableInv (read s now high) :=
  tableInv_readPin _ now high (tableInv_readHold s now h)

/-- Every call of the public interface preserves the transition-table invariant. -/
theorem tableInv_apply (s : TroykaButton) (op : Op) (h : tableInv s) :
    tableInv (Op.apply s op) := by
  cases op with
  | read now high => exact tableInv_read s now high h
  | reinit now high => exact tableInv_read _ now high (tableInv_resetObject s)
  | setTimeHold t => exact h
  | begin => exact h
  | justPressed =>
    simp only [Op.apply, justPressed, _justXxxInner]
    split
    · exact h
    · exact h
  | justReleased =>
    simp only [Op.apply, justReleased, _justXxxInner]
    split
    · exact h
    · exact h
  | justHeld =>
    simp only [Op.apply, justHeld, _justXxxInner]
    split
    · exact h
    · exact h
  | isClick =>
    simp only [Op.apply, isClick]
    split
    · exact h
    · exact h

/-- A series of calls preserves the transition-table invariant. -/
theorem tableInv_runOps (ops : List Op) (s : TroykaButton) (h : tableInv s) :
    tableInv (runOps s ops) := by
  induction ops generalizing s with
  | nil => exact h
  | cons op rest ih => exact ih _ (tableInv_apply s op h)

/-- C9: transition-table invariant. In every object obtained from the
constructor by a series of `read()`, `reinit()`, `setTimeHold()`, `begin()` and
edge-query calls, `_state = stLongHold` implies `_prevState = stPressed` and
`_state = stPressed` implies `_prevState = stReleased`; and no single `read()`
takes an object in state `stReleased` to `stLongHold`. -/
theorem longHold_only_from_pressed (pin timeHold : Nat) (pullUP : Bool) (ops : List Op)
    (s : TroykaButton) (now : Nat) (high : Bool) (hrel : s._state = stReleased) :
    ((runOps (ctor pin timeHold pullUP) ops)._state = stLongHold →
      (runOps (ctor pin timeHold pullUP) ops)._prevState = stPressed) ∧
    ((runOps (ctor pin timeHold pullUP) ops)._state = stPressed →
      (runOps (ctor pin timeHold pullUP) ops)._prevState = stReleased) ∧
    (read s now high)._state ≠ stLongHold := by
  refine ⟨(tableInv_runOps ops _ (tableInv_resetObject _)).1,
    (tableInv_runOps ops _ (tableInv_resetObject _)).2, ?_⟩
  obtain ⟨pin, th, pu, ps, tps, act, st, prev, dirty, tms⟩ := s
  simp only at hrel
  subst hrel
  rw [read, readHold_neg _ _ (by simp)]
  by_cases hc : (high != pu) = ps
  · by_cases hw : act = true ∧ sub32 now tps ≥ DEBOUNCE_TIME
    · cases ps <;> simp [readPin, _readPinState, _updateState, hc, hw]
    · simp [readPin, _readPinState, hc, hw]
  · simp [readPin, _readPinState, _updatePinState, hc]

/-- C10: full reset. `reinit()` yields exactly one `read()` applied to the
constructor baseline with the object's pin, pull-up flag and current hold
threshold (a threshold set by `setTimeHold()` is kept), so the result is the
same for two objects that agree on these three members; afterwards
`_state = stReleased`, the dirty flag is clear, `_pinState` is the sampled
level and the debounce timeout is active exactly when that level is active. -/
theorem reinit_eq_read_ctor (s : TroykaButton) (now : Nat) (high : Bool) :
    reinit s now high = read (ctor s._pin s._timeHold s._pullUP) now high ∧
    (∀ t : Nat, reinit (setTimeHold s t) now high = read (ctor s._pin t s._pullUP) now high) ∧
    (∀ s2 : TroykaButton, s2._pin = s._pin → s2._timeHold = s._timeHold →
      s2._pullUP = s._pullUP → reinit s2 now high = reinit s now high) ∧
    (reinit s now high)._state = stReleased ∧
    (reinit s now high)._isStateDirty = false ∧
    (reinit s now high)._pinState = _readPinState s high ∧
    ((reinit s now high)._isDebounceTimeoutActive = true ↔ _readPinState s high = true) := by
  have h1 : ∀ u : TroykaButton,
      reinit u now high = read (ctor u._pin u._timeHold u._pullUP) now high := fun u => rfl
  refine ⟨h1 s, fun t => h1 _, ?_, ?_, ?_, ?_, ?_⟩
  · intro s2 e1 e2 e3
    rw [h1 s2, h1 s, e1, e2, e3]
  all_goals
    obtain ⟨pin, th, pu, ps, tps, act, st, prev, dirty, tms⟩ := s
    simp only [reinit, begin, _resetObject, read]
    rw [readHold_neg _ _ (by simp)]
    simp only [readPin, _readPinState, _updatePinState]
    cases high <;> cases pu <;> simp

/-- Instance of C2: the second poll of a press, 60 ms after the level changed,
commits `stPressed`. -/
theorem read_commit_witness :
    exArmed._isDebounceTimeoutActive = true ∧
    _readPinState exArmed false = exArmed._pinState ∧
    50 ≤ sub32 60 exArmed._tmPinState ∧
    (read exArmed 60 false)._prevState = stReleased ∧
    (read exArmed 60 false)._state = stPressed ∧
    (read exArmed 60 false)._tmState = 60 ∧
    (read exArmed 60 false)._isStateDirty = true ∧
    (read exArmed 60 false)._isDebounceTimeoutActive = false :=
  ⟨by decide, by decide, by decide,
    read_commit exArmed 60 false (by decide) (by decide) (by decide) (by decide)⟩

/-- Instance of C3: after a glitch the confirmed active level leaves the pressed
object as it was, with the debounce timeout deactivated. -/
theorem read_suppress_witness :
    exGlitch._isDebounceTimeoutActive = true ∧
    50 ≤ sub32 120 exGlitch._tmPinState ∧
    exGlitch._state = stPressed ∧
    read exGlitch 120 false = { exGlitch with _isDebounceTimeoutActive := false } :=
  ⟨by decide, by decide, by decide,
    (read_suppress exGlitch 120 false (by decide) (by decide) (by decide)
      (by decide)).2.2.2.2.2.2 (by decide)⟩

/-- Instance of C4: four polls of a bouncing pin within 30 ms leave a released
button released. -/
theorem runReads_bounceOnly_witness :
    bounceOnly (ctor 4 2000 true) [(0, false), (10, true), (20, false), (30, false)] = true ∧
    isPressed (runReads (ctor 4 2000 true) [(0, false), (10, true), (20, false), (30, false)])
      = false :=
  ⟨by decide,
    (runReads_bounceOnly [(0, false), (10, true), (20, false), (30, false)]
      (ctor 4 2000 true) (by decide)).1⟩

/-- Instance of C5: a press confirmed at time 60 is escalated by the poll at
time 2100. -/
theorem read_longHold_witness :
    exPressed._state = stPressed ∧
    exPressed._timeHold ≤ sub32 2100 exPressed._tmState ∧
    (read exPressed 2100 false)._state = stLongHold ∧
    (read exPressed 2100 false)._prevState = stPressed ∧
    (read exPressed 2100 false)._tmState = 2100 ∧
    (read exPressed 2100 false)._isStateDirty = true :=
  ⟨by decide, by decide,
    read_longHold exPressed 2100 false (by decide) (by decide) (by decide)⟩

/-- Instance of C6: on a freshly pressed button `justPressed()` returns true and
a second `justPressed()` returns false; `justReleased()` returns false and
changes nothing. -/
theorem justXxx_single_consumption_witness :
    (justPressed exPressed).1 = true ∧
    (justPressed (justPressed exPressed).2).1 = false ∧
    (justReleased exPressed).1 = false ∧
    (justReleased exPressed).2 = exPressed :=
  ⟨by decide,
    congrArg Prod.fst
      (((justXxx_single_consumption exPressed stPressed).2.2.1 (by decide)).2 stPressed),
    by decide,
    (justXxx_single_consumption exPressed stReleased).2.2.2 (by decide)⟩

/-- Instance of C7: after a short press and release `isClick()` returns true
once. -/
theorem isClick_short_click_witness :
    (isClick exClick).1 = true ∧
    (isClick exClick).2 = { exClick with _isStateDirty := false } ∧
    isClick (isClick exClick).2 = (false, (isClick exClick).2) :=
  ⟨by decide, (isClick_short_click exClick).2.1 (by decide)⟩

/-- Instance of C8: after a short press and release, whichever of `isClick()`
and `justReleased()` is called first returns true and the other false. -/
theorem isClick_justReleased_exclusive_witness :
    exClick._state = stReleased ∧ exClick._prevState = stPressed ∧
    exClick._isStateDirty = true ∧
    (isClick exClick).1 = true ∧ (justReleased (isClick exClick).2).1 = false ∧
    (justReleased exClick).1 = true ∧ (isClick (justReleased exClick).2).1 = false :=
  ⟨by decide, by decide, by decide,
    isClick_justReleased_exclusive exClick (by decide) (by decide) (by decide)⟩

/-- Instance of C9: the object reached by a press held for 2100 ms is in state
`stLongHold` with `_prevState = stPressed`, and a poll of the fresh object does
not reach `stLongHold`. -/
theorem longHold_only_from_pressed_witness :
    (runOps (ctor 4 2000 true) [Op.read 0 false, Op.read 60 false, Op.justPressed,
      Op.read 2100 false])._state = stLongHold ∧
    (runOps (ctor 4 2000 true) [Op.read 0 false, Op.read 60 false, Op.justPressed,
      Op.read 2100 false])._prevState = stPressed ∧
    (read (ctor 4 2000 true) 5000 false)._state ≠ stLongHold :=
  ⟨by decide,
    (longHold_only_from_pressed 4 2000 true
      [Op.read 0 false, Op.read 60 false, Op.justPressed, Op.read 2100 false]
      (ctor 4 2000 true) 5000 false (by decide)).1 (by decide),
    (longHold_only_from_pressed 4 2000 true
      [Op.read 0 false, Op.read 60 false, Op.justPressed, Op.read 2100 false]
      (ctor 4 2000 true) 5000 false (by decide)).2.2⟩

/-- Instance of C10: resetting a pressed object gives the same result as
resetting a fresh one with the same configuration. -/
theorem reinit_eq_read_ctor_witness :
    reinit (ctor 4 2000 true) 5000 false = reinit exPressed 5000 false ∧
    (reinit exPressed 5000 false)._state = stReleased ∧
    (reinit exPressed 5000 false)._isDebounceTimeoutActive = true :=
  ⟨(reinit_eq_read_ctor exPressed 5000 false).2.2.1 (ctor 4 2000 true)
      (by decide) (by decide) (by decide),
    (reinit_eq_read_ctor exPressed 5000 false).2.2.2.1,
    (reinit_eq_read_ctor exPressed 5000 false).2.2.2.2.2.2.mpr (by decide)⟩

/-- The pin number does not influence the long-hold check. -/
theorem readHold_pin (s : TroykaButton) (p now : Nat) :
    readHold { s with _pin := p } now = { readHold s now with _pin := p } := by
  by_cases h : s._state = stPressed ∧ sub32 now s._tmState ≥ s._timeHold
  · simp [readHold, h, _updateState]
  · simp [readHold, h]

/-- The pin number does not influence the debounce branch. -/
theorem readPin_pin (s : TroykaButton) (p now : Nat) (high : Bool) :
    readPin { s with _pin := p } now high = { readPin s now high with _pin := p } := by
  obtain ⟨pin, th, pu, ps, tps, act, st, prev, dirty, tms⟩ := s
  by_cases hc : (high != pu) = ps
  · by_cases hw : act = true ∧ sub32 now tps ≥ DEBOUNCE_TIME
    · cases st <;> cases ps <;> simp [readPin, _readPinState, _updateState, hc, hw]
    · simp [readPin, _readPinState, hc, hw]
  · simp [readPin, _readPinState, _updatePinState, hc]

/-- The pin number does not influence `read()`. -/
theorem read_pin (s : TroykaButton) (p now : Nat) (high : Bool) :
    read { s with _pin := p } now high = { read s now high with _pin := p } := by
  rw [read, readHold_pin, readPin_pin, read]

/-- The pin number does not influence a series of polls. -/
theorem runReads_pin (polls : List (Nat × Bool)) (s : TroykaButton) (p : Nat) :
    runReads { s with _pin := p } polls = { runReads s polls with _pin := p } := by
  induction polls generalizing s with
  | nil => rfl
  | cons q rest ih =>
    obtain ⟨now, high⟩ := q
    simp only [runReads]
    rw [read_pin, ih]

/-- The pin number does not influence the edge queries. -/
theorem justXxxInner_pin (s : TroykaButton) (p : Nat) (X : _State) :
    _justXxxInner { s with _pin := p } X =
      ((_justXxxInner s X).1, { (_justXxxInner s X).2 with _pin := p }) := by
  by_cases h : s._state = X ∧ s._isStateDirty = true
  · simp [_justXxxInner, h]
  · simp [_justXxxInner, h]

/-- The pin number does not influence `isClick()`. -/
theorem isClick_pin (s : TroykaButton) (p : Nat) :
    isClick { s with _pin := p } = ((isClick s).1, { (isClick s).2 with _pin := p }) := by
  by_cases h : s._state = stReleased ∧ s._isStateDirty = true ∧ s._prevState = stPressed
  · simp [isClick, h]
  · simp [isClick, h]

/-- The pin number does not influence any call of the public interface. -/
theorem apply_pin (s : TroykaButton) (p : Nat) (op : Op) :
    Op.apply { s with _pin := p } op = { Op.apply s op with _pin := p } := by
  cases op with
  | read now high => exact read_pin s p now high
  | reinit now high => exact read_pin (_resetObject s) p now high
  | setTimeHold t => rfl
  | begin => rfl
  | justPressed => simp only [Op.apply, justPressed, justXxxInner_pin]
  | justReleased => simp only [Op.apply, justReleased, justXxxInner_pin]
  | justHeld => simp only [Op.apply, justHeld, justXxxInner_pin]
  | isClick => simp only [Op.apply, isClick_pin]

/-- The pin number does not influence a series of calls. -/
theorem runOps_pin (ops : List Op) (s : TroykaButton) (p : Nat) :
    runOps { s with _pin := p } ops = { runOps s ops with _pin := p } := by
  induction ops generalizing s with
  | nil => rfl
  | cons op rest ih =>
    simp only [runOps]
    rw [apply_pin, ih]

/-- The press scenario on any pin is the one on pin 0. -/
theorem scPressed_pin (pin : Nat) : scPressed pin = { scPressed 0 with _pin := pin } := by
  have h : ctor pin 2000 true = { ctor 0 2000 true with _pin := pin } := rfl
  unfold scPressed
  rw [h, runOps_pin]

/-- The long-hold scenario on any pin is the one on pin 0. -/
theorem scHeld_pin (pin : Nat) : scHeld pin = { scHeld 0 with _pin := pin } := by
  unfold scHeld
  rw [scPressed_pin, runOps_pin]

/-- The release scenario on any pin is the one on pin 0. -/
theorem scReleased_pin (pin : Nat) : scReleased pin = { scReleased 0 with _pin := pin } := by
  unfold scReleased
  rw [scHeld_pin, runOps_pin]

/-- The glitch scenario on any pin is the one on pin 0. -/
theorem scGlitch_pin (pin n : Nat) : scGlitch pin n = { scGlitch 0 n with _pin := pin } := by
  unfold scGlitch
  rw [scPressed_pin, runOps_pin, runReads_pin]

/-- C11: long-hold scenario. From the constructor baseline with threshold
2000 ms and pull-up, polls with the pin active at 0 and 60 ms give `stPressed`
and `justPressed()` returns true; the poll at 2100 ms with the pin still active
gives `stLongHold` and `justHeld()` returns true; polls with the pin inactive at
2150 and 2210 ms give `stReleased`, after which `justReleased()` returns true
and `isClick()` returns false, whichever of the two is called first. -/
theorem scenario_longHold (pin : Nat) :
    (scPressed pin)._state = stPressed ∧
    (justPressed (scPressed pin)).1 = true ∧
    (scHeld pin)._state = stLongHold ∧
    (justHeld (scHeld pin)).1 = true ∧
    (scReleased pin)._state = stReleased ∧
    (justReleased (scReleased pin)).1 = true ∧
    (isClick (justReleased (scReleased pin)).2).1 = false ∧
    (isClick (scReleased pin)).1 = false ∧
    (justReleased (isClick (scReleased pin)).2).1 = true := by
  rw [scPressed_pin, scHeld_pin, scReleased_pin]
  simp only [justPressed, justHeld, justReleased, justXxxInner_pin, isClick_pin]
  decide

/-- The glitch scenario on pin 0, for the first `n` polls. -/
theorem scGlitch_zero (n : Nat) :
    isPressed (scGlitch 0 n) = true ∧
    (justPressed (scGlitch 0 n)).1 = false ∧
    (scGlitch 0 n)._state = stPressed ∧
    (scGlitch 0 n)._tmState = 60 := by
  have ht : 5 ≤ n → scGlitch 0 n = scGlitch 0 5 := by
    intro h5
    unfold scGlitch
    rw [List.take_of_length_le (by simpa [glitchPolls] using h5)]
    rfl
  have h : n = 0 ∨ n = 1 ∨ n = 2 ∨ n = 3 ∨ n = 4 ∨ 5 ≤ n := by omega
  rcases h with h | h | h | h | h | h
  · rw [h]; decide
  · rw [h]; decide
  · rw [h]; decide
  · rw [h]; decide
  · rw [h]; decide
  · rw [ht h]; decide

/-- C12: glitch scenario. After the press was confirmed at 60 ms and
`justPressed()` returned true, an inactive sample at 62 ms, an active one at
65 ms and active polls at 110, 115 and 120 ms leave the button pressed: after
each of the first `n` of these polls, for every `n`, `isPressed()` is true,
`justPressed()` returns false, `_state` is `stPressed` and `_tmState` is 60. -/
theorem scenario_glitch (pin n : Nat) :
    (justPressed (scPressed pin)).1 = true ∧
    isPressed (scGlitch pin n) = true ∧
    (justPressed (scGlitch pin n)).1 = false ∧
    (scGlitch pin n)._state = stPressed ∧
    (scGlitch pin n)._tmState = 60 := by
  have h0 : (justPressed (scPressed 0)).1 = true := by decide
  have h1 := scGlitch_zero n
  rw [scPressed_pin, scGlitch_pin]
  simp only [justPressed, justXxxInner_pin, isPressed] at h0 h1 ⊢
  exact ⟨h0, h1⟩

/-- The 32-bit difference is the integer difference reduced modulo `2 ^ 32`. -/
theorem sub32_int (a b : Nat) :
    (sub32 a b : Int) = ((a : Int) - (b : Int)) % 4294967296 := by
  have hW : W32 = 4294967296 := by norm_num [W32]
  simp only [sub32, hW]
  omega

/-- The 32-bit difference does not change when both clock readings move forward
by the same amount on the 32-bit counter. -/
theorem sub32_shift (a b k : Nat) :
    sub32 ((a + k) % W32) ((b + k) % W32) = sub32 a b := by
  have hW : W32 = 4294967296 := by norm_num [W32]
  simp only [sub32, hW]
  omega

/-- The long-hold check commutes with moving the clock. -/
theorem readHold_shift (s : TroykaButton) (now k : Nat) :
    readHold (shiftClock k s) ((now + k) % W32) = shiftClock k (readHold s now) := by
  by_cases h : s._state = stPressed ∧ sub32 now s._tmState ≥ s._timeHold
  · simp [readHold, shiftClock, sub32_shift, h, _updateState]
  · simp [readHold, shiftClock, sub32_shift, h]

/-- The debounce branch commutes with moving the clock. -/
theorem readPin_shift (s : TroykaButton) (now k : Nat) (high : Bool) :
    readPin (shiftClock k s) ((now + k) % W32) high = shiftClock k (readPin s now high) := by
  obtain ⟨pin, th, pu, ps, tps, act, st, prev, dirty, tms⟩ := s
  by_cases hc : (high != pu) = ps
  · by_cases hw : act = true ∧ sub32 now tps ≥ DEBOUNCE_TIME
    · cases st <;> cases ps <;>
        simp [readPin, shiftClock, sub32_shift, _readPinState, _updateState, hc, hw]
    · simp [readPin, shiftClock, sub32_shift, _readPinState, hc, hw]
  · simp [readPin, shiftClock, _readPinState, _updatePinState, hc]

/-- C13: wraparound-safe timing. Both timing decisions of `read()` are taken on
the 32-bit unsigned difference, which is the integer difference reduced modulo
`2 ^ 32`: in state `stPressed` the long-hold check fires exactly when
`sub32 now _tmState` is at least `_timeHold`, and with the debounce timeout
active and the level unchanged the timeout is ended exactly when
`sub32 now _tmPinState` is at least 50. Polling the object whose two stored
clock readings are moved by `k` at time `now + k` (both modulo `2 ^ 32`) gives
the result of polling the object at time `now`, moved by `k`. -/
theorem read_wraparound (s : TroykaButton) (now k : Nat) (high : Bool) :
    ((sub32 now s._tmState : Int) = ((now : Int) - (s._tmState : Int)) % 4294967296) ∧
    ((sub32 now s._tmPinState : Int) = ((now : Int) - (s._tmPinState : Int)) % 4294967296) ∧
    (s._state = stPressed →
      ((readHold s now)._state = stLongHold ↔ s._timeHold ≤ sub32 now s._tmState)) ∧
    (s._isDebounceTimeoutActive = true → _readPinState s high = s._pinState →
      ((readPin s now high)._isDebounceTimeoutActive = false ↔
        50 ≤ sub32 now s._tmPinState)) ∧
    read (shiftClock k s) ((now + k) % W32) high = shiftClock k (read s now high) := by
  refine ⟨sub32_int _ _, sub32_int _ _, ?_, ?_, ?_⟩
  · intro hst
    by_cases h : s._timeHold ≤ sub32 now s._tmState
    · simp [readHold, hst, h, _updateState]
    · simp [readHold, hst, h]
  · intro hact hsame
    obtain ⟨pin, th, pu, ps, tps, act, st, prev, dirty, tms⟩ := s
    simp only [_readPinState] at hact hsame
    subst hact
    by_cases hw : sub32 now tps ≥ DEBOUNCE_TIME
    · have hw2 : 50 ≤ sub32 now tps := hw
      cases st <;> cases ps <;> simp [readPin, _readPinState, _updateState, hsame, hw, hw2]
    · have hw2 : ¬ 50 ≤ sub32 now tps := hw
      simp [readPin, _readPinState, hsame, hw, hw2]
  · rw [read, readHold_shift, readPin_shift, read]

/-- C15: polarity correction. `_readPinState()` is the exclusive or of "the pin
is HIGH" and the pull-up flag: with pull-up the level is active exactly when the
pin is low, with pull-down exactly when it is high; the legacy `read()` computes
the same level (it is what it stores in `_buttonStateWas`) for every electrical
level and pull-up flag. -/
theorem polarity (s : TroykaButton) (l : TroykaButtonLegacy) (now : Nat) (high : Bool) :
    _readPinState s high = xor high s._pullUP ∧
    (s._pullUP = true → (_readPinState s high = true ↔ high = false)) ∧
    (s._pullUP = false → (_readPinState s high = true ↔ high = true)) ∧
    (l._pullUP = s._pullUP → TroykaButtonLegacy.buttonStateNow l high = _readPinState s high) ∧
    (TroykaButtonLegacy.read l now high)._buttonStateWas =
      TroykaButtonLegacy.buttonStateNow l high := by
  refine ⟨?_, ?_, ?_, ?_, ?_⟩
  · cases high <;> cases h : s._pullUP <;> simp [_readPinState, h]
  · intro h; cases high <;> simp [_readPinState, h]
  · intro h; cases high <;> simp [_readPinState, h]
  · intro h
    cases high <;> cases hp : s._pullUP <;>
      simp [TroykaButtonLegacy.buttonStateNow, _readPinState, h, hp]
  · rfl
/-- The debounce branch does nothing when the level is unchanged and the timeout
is inactive or has not run out. -/
theorem readPin_idle (t : TroykaButton) (now : Nat) (high : Bool)
    (hsame : _readPinState t high = t._pinState)
    (hidle : t._isDebounceTimeoutActive = false ∨ sub32 now t._tmPinState < DEBOUNCE_TIME) :
    readPin t now high = t := by
  have h2 : ¬ (t._isDebounceTimeoutActive = true ∧ sub32 now t._tmPinState ≥ DEBOUNCE_TIME) := by
    rintro ⟨ha, hw⟩
    rcases hidle with h | h
    · rw [h] at ha; exact absurd ha (by decide)
    · exact absurd hw (Nat.not_le.mpr h)
  simp [readPin, hsame, h2]

/-- `steadyOnly` looks at the pull-up flag and the remembered level only. -/
theorem steadyOnly_congr (s t : TroykaButton) (polls : List (Nat × Bool))
    (h1 : t._pullUP = s._pullUP) (h2 : t._pinState = s._pinState) :
    steadyOnly t polls = steadyOnly s polls := by
  simp [steadyOnly, _readPinState, h1, h2]

/-- A series of steady polls with the timeout inactive leaves the object alone
or escalates it once. -/
theorem runReads_steady (polls : List (Nat × Bool)) (s : TroykaButton)
    (hact : s._isDebounceTimeoutActive = false) (hst : steadyOnly s polls = true) :
    runReads s polls = s ∨
      (s._state = stPressed ∧ ∃ p ∈ polls, runReads s polls = _updateState s stLongHold p.1) := by
  induction polls generalizing s with
  | nil => left; rfl
  | cons q rest ih =>
    obtain ⟨now, high⟩ := q
    have hsplit : _readPinState s high = s._pinState ∧ steadyOnly s rest = true := by
      simpa [steadyOnly] using hst
    obtain ⟨hq, hrest⟩ := hsplit
    have hstep : read s now high = readHold s now := by
      obtain ⟨_, _, hpu, hps, _, hda⟩ := readHold_filter s now
      apply readPin_idle
      · simpa [_readPinState, hpu, hps] using hq
      · left; rw [hda]; exact hact
    simp only [runReads]
    rw [hstep]
    by_cases hesc : s._state = stPressed ∧ s._timeHold ≤ sub32 now s._tmState
    · rw [readHold_pos s now hesc]
      have h1 := ih (_updateState s stLongHold now) hact
        ((steadyOnly_congr s _ rest rfl rfl).trans hrest)
      rcases h1 with h1 | ⟨h1, _⟩
      · right
        exact ⟨hesc.1, (now, high), List.mem_cons_self _ _, h1⟩
      · exact absurd h1 (by simp [_updateState])
    · rw [readHold_neg s now hesc]
      rcases ih s hact hrest with h1 | ⟨h1, p, hp, h2⟩
      · left; exact h1
      · right; exact ⟨h1, p, List.mem_cons_of_mem _ hp, h2⟩

/-- C16: a steady-state poll changes nothing apart from the long-hold check.
When the sampled level equals the remembered one and the debounce timeout is
inactive or less than 50 ms old, `read()` is the long-hold check alone, and it
is the identity when moreover the state is not `stPressed` or the hold time has
not passed. Hence over any series of polls of the remembered level with the
timeout inactive nothing is committed: the object is unchanged or was escalated
once, at the time of one of the polls. -/
theorem read_steady (s : TroykaButton) (now : Nat) (high : Bool) (polls : List (Nat × Bool))
    (hsame : _readPinState s high = s._pinState)
    (hidle : s._isDebounceTimeoutActive = false ∨ sub32 now s._tmPinState < 50) :
    read s now high = readHold s now ∧
    ((s._state ≠ stPressed ∨ sub32 now s._tmState < s._timeHold) → read s now high = s) ∧
    (s._isDebounceTimeoutActive = false → steadyOnly s polls = true →
      (runReads s polls = s ∨
        (s._state = stPressed ∧
          ∃ p ∈ polls, runReads s polls = _updateState s stLongHold p.1))) := by
  have hstep : read s now high = readHold s now := by
    obtain ⟨_, _, hpu, hps, htps, hda⟩ := readHold_filter s now
    apply readPin_idle
    · simpa [_readPinState, hpu, hps] using hsame
    · rw [hda, htps]; exact hidle
  refine ⟨hstep, ?_, runReads_steady polls s⟩
  intro h
  rw [hstep]
  apply readHold_neg
  rintro ⟨h1, h2⟩
  rcases h with h | h
  · exact h h1
  · exact absurd h2 (Nat.not_le.mpr h)

/-- C17: pin-change step. When the sampled level differs from the remembered
one, `read()` stores the new level, sets `_tmPinState = now` and arms the
debounce timeout, and does nothing else: the object is otherwise what the
long-hold check left (and what it was before the poll when the state is not
`stPressed` or the hold time has not passed). -/
theorem read_pinChange (s : TroykaButton) (now : Nat) (high : Bool)
    (hchg : _readPinState s high ≠ s._pinState) :
    read s now high =
      { readHold s now with _pinState := _readPinState s high, _tmPinState := now,
                            _isDebounceTimeoutActive := true } ∧
    (read s now high)._pinState = _readPinState s high ∧
    (read s now high)._tmPinState = now ∧
    (read s now high)._isDebounceTimeoutActive = true ∧
    (read s now high)._state = (readHold s now)._state ∧
    (read s now high)._prevState = (readHold s now)._prevState ∧
    (read s now high)._tmState = (readHold s now)._tmState ∧
    (read s now high)._isStateDirty = (readHold s now)._isStateDirty ∧
    ((s._state ≠ stPressed ∨ sub32 now s._tmState < s._timeHold) →
      read s now high =
        { s with _pinState := _readPinState s high, _tmPinState := now,
                 _isDebounceTimeoutActive := true }) := by
  obtain ⟨_, _, hpu, hps, _, _⟩ := readHold_filter s now
  have hchg2 : _readPinState (readHold s now) high ≠ (readHold s now)._pinState := by
    simpa [_readPinState, hpu, hps] using hchg
  have hr : _readPinState (readHold s now) high = _readPinState s high := by
    simp [_readPinState, hpu]
  have key : read s now high =
      { readHold s now with _pinState := _readPinState s high, _tmPinState := now,
                            _isDebounceTimeoutActive := true } := by
    rw [← hr]
    simp [read, readPin, hchg2, _updatePinState]
  refine ⟨key, ?_, ?_, ?_, ?_, ?_, ?_, ?_, ?_⟩
  · rw [key]
  · rw [key]
  · rw [key]
  · rw [key]
  · rw [key]
  · rw [key]
  · rw [key]
  · intro h
    rw [key, readHold_neg s now]
    rintro ⟨h1, h2⟩
    rcases h with h | h
    · exact h h1
    · exact absurd h2 (Nat.not_le.mpr h)

/-- The debounce branch either keeps the four members of the logical state or
updates the state to a different one at time `now`. -/
theorem readPin_logical (t : TroykaButton) (now : Nat) (high : Bool) :
    ((readPin t now high)._state = t._state ∧ (readPin t now high)._prevState = t._prevState ∧
      (readPin t now high)._tmState = t._tmState ∧
      (readPin t now high)._isStateDirty = t._isStateDirty) ∨
    ((readPin t now high)._state ≠ t._state ∧ (readPin t now high)._state ≠ stLongHold ∧
      ((readPin t now high)._state = stPressed → t._state = stReleased) ∧
      (readPin t now high)._prevState = t._state ∧
      (readPin t now high)._tmState = now ∧ (readPin t now high)._isStateDirty = true) := by
  obtain ⟨pin, th, pu, ps, tps, act, st, prev, dirty, tms⟩ := t
  by_cases hc : (high != pu) = ps
  · by_cases hw : act = true ∧ sub32 now tps ≥ DEBOUNCE_TIME
    · cases st <;> cases ps <;> simp [readPin, _readPinState, _updateState, hc, hw]
    · simp [readPin, _readPinState, hc, hw]
  · simp [readPin, _readPinState, _updatePinState, hc]

/-- C18: the hold timer is touched only by real transitions. If `_state` is
the same after a poll as before it, then `_tmState`, `_prevState` and the dirty
flag are unchanged; so a poll that changes `_tmState` changes `_state`; and a
poll that changes `_state` sets `_tmState = now` and the dirty flag. -/
theorem read_frame (s : TroykaButton) (now : Nat) (high : Bool) :
    ((read s now high)._state = s._state →
      (read s now high)._tmState = s._tmState ∧
      (read s now high)._prevState = s._prevState ∧
      (read s now high)._isStateDirty = s._isStateDirty) ∧
    ((read s now high)._tmState ≠ s._tmState → (read s now high)._state ≠ s._state) ∧
    ((read s now high)._state ≠ s._state →
      (read s now high)._tmState = now ∧ (read s now high)._isStateDirty = true) := by
  have hp := readPin_logical (readHold s now) now high
  have key : ((read s now high)._state = s._state →
      (read s now high)._tmState = s._tmState ∧
      (read s now high)._prevState = s._prevState ∧
      (read s now high)._isStateDirty = s._isStateDirty) ∧
    ((read s now high)._state ≠ s._state →
      (read s now high)._tmState = now ∧ (read s now high)._isStateDirty = true) := by
    unfold read
    by_cases hesc : s._state = stPressed ∧ s._timeHold ≤ sub32 now s._tmState
    · rw [readHold_pos s now hesc] at hp ⊢
      rcases hp with ⟨h1, h2, h3, h4⟩ | ⟨h1, h2, h3, h4, h5, h6⟩
      · refine ⟨fun h => ?_, fun _ => ?_⟩
        · rw [h1, hesc.1] at h
          exact absurd h (by simp [_updateState])
        · exact ⟨h3, h4⟩
      · refine ⟨fun h => ?_, fun _ => ⟨h5, h6⟩⟩
        rw [hesc.1] at h
        have := h3 h
        simp [_updateState] at this
    · rw [readHold_neg s now hesc] at hp ⊢
      rcases hp with ⟨h1, h2, h3, h4⟩ | ⟨h1, h2, h3, h4, h5, h6⟩
      · exact ⟨fun _ => ⟨h3, h2, h4⟩, fun h => absurd h1 h⟩
      · exact ⟨fun h => absurd h h1, fun _ => ⟨h5, h6⟩⟩
  refine ⟨key.1, ?_, key.2⟩
  intro hne heq
  exact hne (key.1 heq).1

/-- C19: an unconsumed press edge is overwritten by the escalation. In state
`stPressed` with the dirty flag set (so `justPressed()` would return true), a
poll with an active level at which the hold time has passed leaves an object on
which `justPressed()` returns false and `justHeld()` returns true. -/
theorem read_overwrites_press (s : TroykaButton) (now : Nat) (high : Bool)
    (hst : s._state = stPressed) (hdirty : s._isStateDirty = true)
    (hth : s._timeHold ≤ sub32 now s._tmState)
    (hlvl : _readPinState s high = true) :
    (justPressed s).1 = true ∧
    (justPressed (read s now high)).1 = false ∧
    (justHeld (read s now high)).1 = true := by
  have hs : (read s now high)._state = stLongHold ∧ (read s now high)._isStateDirty = true := by
    obtain ⟨pin, th, pu, ps, tps, act, st, prev, dirty, tms⟩ := s
    simp only at hst hth
    subst hst
    rw [read, readHold_pos _ _ ⟨rfl, hth⟩]
    simp only [_readPinState] at hlvl
    by_cases hc : ps = true
    · subst hc
      by_cases hw : act = true ∧ sub32 now tps ≥ DEBOUNCE_TIME
      · simp [readPin, _readPinState, _updateState, hlvl, hw]
      · simp [readPin, _readPinState, _updateState, hlvl, hw]
    · have hc2 : ps = false := by simpa using hc
      subst hc2
      simp [readPin, _readPinState, _updateState, _updatePinState, hlvl]
  refine ⟨?_, ?_, ?_⟩
  · simp [justPressed, _justXxxInner, hst, hdirty]
  · simp [justPressed, _justXxxInner, hs.1]
  · simp [justHeld, _justXxxInner, hs.1, hs.2]

/-- The debounce branch leaves the hold time alone. -/
theorem readPin_timeHold (t : TroykaButton) (now : Nat) (high : Bool) :
    (readPin t now high)._timeHold = t._timeHold := by
  obtain ⟨pin, th, pu, ps, tps, act, st, prev, dirty, tms⟩ := t
  by_cases hc : (high != pu) = ps
  · by_cases hw : act = true ∧ sub32 now tps ≥ DEBOUNCE_TIME
    · cases st <;> cases ps <;> simp [readPin, _readPinState, _updateState, hc, hw]
    · simp [readPin, _readPinState, hc, hw]
  · simp [readPin, _readPinState, _updatePinState, hc]

/-- The reset object satisfies the zero-hold invariant when the hold time is zero. -/
theorem zeroHoldInv_resetObject (s : TroykaButton) (h : s._timeHold = 0) :
    zeroHoldInv (_resetObject s) := by
  simp [zeroHoldInv, _resetObject, h]

/-- With a zero hold time the long-hold check leaves no `stPressed` behind. -/
theorem zeroHoldInv_readHold (s : TroykaButton) (now : Nat) (h : zeroHoldInv s) :
    zeroHoldInv (readHold s now) ∧ (readHold s now)._state ≠ stPressed := by
  obtain ⟨h0, h1⟩ := h
  by_cases hst : s._state = stPressed
  · rw [readHold_pos s now ⟨hst, by rw [h0]; exact Nat.zero_le _⟩]
    simp [zeroHoldInv, _updateState, h0]
  · rw [readHold_neg s now (fun hc => hst hc.1)]
    exact ⟨⟨h0, h1⟩, hst⟩

/-- With a zero hold time `read()` keeps the zero-hold invariant. -/
theorem zeroHoldInv_read (s : TroykaButton) (now : Nat) (high : Bool) (h : zeroHoldInv s) :
    zeroHoldInv (read s now high) := by
  obtain ⟨⟨h0, h1⟩, hnp⟩ := zeroHoldInv_readHold s now h
  unfold read
  refine ⟨(readPin_timeHold _ now high).trans h0, ?_⟩
  rcases readPin_logical (readHold s now) now high with ⟨e1, e2, _, e4⟩ | ⟨n1, _, _, e2, _, _⟩
  · intro hr hd
    rw [e2]
    exact h1 (e1 ▸ hr) (e4 ▸ hd)
  · intro hr _
    rw [e2]
    rw [hr] at n1
    cases hs : (readHold s now)._state with
    | stReleased => exact absurd hs.symm n1
    | stPressed => exact absurd hs hnp
    | stLongHold => rfl

/-- Every call other than `setTimeHold()` keeps the zero-hold invariant. -/
theorem zeroHoldInv_apply (s : TroykaButton) (op : Op) (hop : Op.isSetTimeHold op = false)
    (h : zeroHoldInv s) : zeroHoldInv (Op.apply s op) := by
  cases op with
  | read now high => exact zeroHoldInv_read s now high h
  | reinit now high => exact zeroHoldInv_read _ now high (zeroHoldInv_resetObject s h.1)
  | setTimeHold t => simp [Op.isSetTimeHold] at hop
  | begin => exact h
  | justPressed =>
    simp only [Op.apply, justPressed, _justXxxInner]
    split
    · exact ⟨h.1, fun _ hd => absurd hd (by simp)⟩
    · exact h
  | justReleased =>
    simp only [Op.apply, justReleased, _justXxxInner]
    split
    · exact ⟨h.1, fun _ hd => absurd hd (by simp)⟩
    · exact h
  | justHeld =>
    simp only [Op.apply, justHeld, _justXxxInner]
    split
    · exact ⟨h.1, fun _ hd => absurd hd (by simp)⟩
    · exact h
  | isClick =>
    simp only [Op.apply, isClick]
    split
    · exact ⟨h.1, fun _ hd => absurd hd (by simp)⟩
    · exact h

/-- A series of calls without `setTimeHold()` keeps the zero-hold invariant. -/
theorem zeroHoldInv_runOps (ops : List Op) (s : TroykaButton)
    (hops : ∀ op ∈ ops, Op.isSetTimeHold op = false) (h : zeroHoldInv s) :
    zeroHoldInv (runOps s ops) := by
  induction ops generalizing s with
  | nil => exact h
  | cons op rest ih =>
    exact ih _ (fun o ho => hops o (List.mem_cons_of_mem _ ho))
      (zeroHoldInv_apply s op (hops op (List.mem_cons_self _ _)) h)

/-- C20: with a zero hold threshold the current variant never reports a short
click. For an object constructed with hold time 0, after any series of calls
without `setTimeHold()`, a pending release (`stReleased` with the dirty flag
set) has `_prevState = stLongHold`, so `isClick()` returns false; and whenever
the state is `stPressed` the long-hold check of the next poll makes it
`stLongHold`. -/
theorem zeroHold_no_click (pin : Nat) (pullUP : Bool) (ops : List Op) (now : Nat)
    (hops : ∀ op ∈ ops, Op.isSetTimeHold op = false) :
    ((runOps (ctor pin 0 pullUP) ops)._state = stReleased →
      (runOps (ctor pin 0 pullUP) ops)._isStateDirty = true →
      (runOps (ctor pin 0 pullUP) ops)._prevState = stLongHold) ∧
    (isClick (runOps (ctor pin 0 pullUP) ops)).1 = false ∧
    ((runOps (ctor pin 0 pullUP) ops)._state = stPressed →
      (readHold (runOps (ctor pin 0 pullUP) ops) now)._state = stLongHold) := by
  have hinv : zeroHoldInv (runOps (ctor pin 0 pullUP) ops) :=
    zeroHoldInv_runOps ops _ hops (zeroHoldInv_resetObject _ rfl)
  refine ⟨hinv.2, ?_, ?_⟩
  · unfold isClick
    split
    · next hc =>
      have := hinv.2 hc.1 hc.2.1
      rw [hc.2.2] at this
      exact absurd this (by decide)
    · rfl
  · intro hst
    rw [readHold_pos _ now ⟨hst, by rw [hinv.1]; exact Nat.zero_le _⟩]
    rfl

/-- Instance of C13: the press stored at `2 ^ 32 - 40` ms is escalated by the
poll at 2000 ms, after the counter wrapped, as the unshifted press stored at
60 ms is by the poll at 2100 ms. -/
theorem read_wraparound_witness :
    exWrapped._tmState = 4294967256 ∧ exWrapped._state = stPressed ∧
    (2100 + 4294967196) % W32 = 2000 ∧
    (readHold exWrapped 2000)._state = stLongHold ∧
    read (shiftClock 4294967196 exPressed) ((2100 + 4294967196) % W32) false =
      shiftClock 4294967196 (read exPressed 2100 false) :=
  ⟨by decide, by decide, by decide,
    ((read_wraparound exWrapped 2000 0 false).2.2.1 (by decide)).mpr (by decide),
    (read_wraparound exPressed 2100 4294967196 false).2.2.2.2⟩

/-- Instance of C15: under pull-up a low pin is an active level, in both
variants. -/
theorem polarity_witness :
    _readPinState exPressed false = true ∧
    TroykaButtonLegacy.buttonStateNow TroykaButtonLegacy.exZeroPressed false =
      _readPinState exPressed false :=
  ⟨((polarity exPressed TroykaButtonLegacy.exZeroPressed 0 false).2.1 (by decide)).mpr rfl,
    (polarity exPressed TroykaButtonLegacy.exZeroPressed 0 false).2.2.2.1 (by decide)⟩

/-- Instance of C16: polling a pressed button at 100 ms changes nothing. -/
theorem read_steady_witness :
    _readPinState exPressed false = exPressed._pinState ∧
    exPressed._isDebounceTimeoutActive = false ∧
    read exPressed 100 false = exPressed :=
  ⟨by decide, by decide,
    (read_steady exPressed 100 false [] (by decide) (Or.inl (by decide))).2.1
      (Or.inr (by decide))⟩

/-- Instance of C17: the pin of a pressed button going high at 100 ms arms the
debounce timeout and leaves the logical state alone. -/
theorem read_pinChange_witness :
    _readPinState exPressed true ≠ exPressed._pinState ∧
    read exPressed 100 true =
      { exPressed with _pinState := false, _tmPinState := 100,
                       _isDebounceTimeoutActive := true } :=
  ⟨by decide,
    (read_pinChange exPressed 100 true (by decide)).2.2.2.2.2.2.2.2 (Or.inr (by decide))⟩

/-- Instance of C18: the poll that confirms the level after a glitch keeps
`_tmState` at 60. -/
theorem read_frame_witness :
    (read exGlitch 120 false)._state = exGlitch._state ∧
    (read exGlitch 120 false)._tmState = 60 :=
  ⟨by decide, ((read_frame exGlitch 120 false).1 (by decide)).1⟩

/-- Instance of C19: a press confirmed at 60 ms and never queried is reported as
held, not as pressed, after the poll at 2100 ms. -/
theorem read_overwrites_press_witness :
    exPressed._state = stPressed ∧ exPressed._isStateDirty = true ∧
    exPressed._timeHold ≤ sub32 2100 exPressed._tmState ∧
    (justPressed exPressed).1 = true ∧
    (justPressed (read exPressed 2100 false)).1 = false ∧
    (justHeld (read exPressed 2100 false)).1 = true :=
  ⟨by decide, by decide, by decide,
    read_overwrites_press exPressed 2100 false (by decide) (by decide) (by decide)
      (by decide)⟩

/-- Instance of C20: with hold time 0 a press released after 100 ms is entered
from `stLongHold` and is not a click. -/
theorem zeroHold_no_click_witness :
    (runOps (ctor 4 0 true)
      [Op.read 0 false, Op.read 60 false, Op.read 100 true, Op.read 160 true])._state
        = stReleased ∧
    (runOps (ctor 4 0 true)
      [Op.read 0 false, Op.read 60 false, Op.read 100 true, Op.read 160 true])._prevState
        = stLongHold ∧
    (isClick (runOps (ctor 4 0 true)
      [Op.read 0 false, Op.read 60 false, Op.read 100 true, Op.read 160 true])).1 = false :=
  ⟨by decide,
    (zeroHold_no_click 4 true
      [Op.read 0 false, Op.read 60 false, Op.read 100 true, Op.read 160 true] 0
      (by decide)).1 (by decide) (by decide),
    (zeroHold_no_click 4 true
      [Op.read 0 false, Op.read 60 false, Op.read 100 true, Op.read 160 true] 0
      (by decide)).2.1⟩

end TroykaButton

namespace TroykaButtonLegacy

/-- The legacy `read()` leaves the hold time alone. -/
theorem read_timeHold (s : TroykaButtonLegacy) (now : Nat) (high : Bool) :
    (read s now high)._timeHold = s._timeHold := by
  unfold read
  simp only
  split <;> split <;> split <;> rfl

/-- Evaluation for C14: a legacy object with hold time 0 reports the press at
100 ms and the long hold at the next poll, 1 ms later, with or without
`begin()`. -/
theorem zero_hold_reports_long :
    (ctor zeroMem 4 0 true)._timeHold = 0 ∧
    justPressed (read (begin (ctor zeroMem 4 0 true)) 100 false) = true ∧
    isHold (read (begin (ctor zeroMem 4 0 true)) 100 false) = false ∧
    isHold (runReads (begin (ctor zeroMem 4 0 true)) [(100, false), (101, false)]) = true ∧
    isHold (runReads (ctor zeroMem 4 0 true) [(100, false), (101, false)]) = true := by
  decide

/-- C14, amended: in the legacy variant a hold time of 0 is kept by `read()`
and `begin()` and disables the release report, not the long-hold report: no
`read()` sets `ON_RELEASE` (`justReleased()` is false after every read), while a
`read()` that samples the button active when it was active at the previous
read, no long hold is recorded and the 32-bit time since the last recorded
event is not zero, sets `ON_PRESS_LONG` (`isHold()` is true). -/
theorem zero_hold_no_release (s : TroykaButtonLegacy) (now : Nat) (high : Bool)
    (h0 : s._timeHold = 0) :
    (read s now high)._timeHold = 0 ∧
    (begin s)._timeHold = 0 ∧
    justReleased (read s now high) = false ∧
    (buttonStateNow s high = true → s._buttonStateWas = true →
      s._buttonStateNowLong = false → TroykaButton.sub32 now s._msButtonState ≠ 0 →
      isHold (read s now high) = true) := by
  refine ⟨(read_timeHold s now high).trans h0, h0, ?_, ?_⟩
  · obtain ⟨pin, th, pu, sb, was, long, ms⟩ := s
    simp only at h0
    subst h0
    simp only [read, justReleased, ON_RELEASE, ON_PRESS, ON_PRESS_LONG]
    split <;> split <;> split <;> simp_all
  · intro hb hwas hlong hne
    obtain ⟨pin, th, pu, sb, was, long, ms⟩ := s
    simp only at h0 hwas hlong hne
    subst h0 hwas hlong
    have hpos : TroykaButton.sub32 now ms > 0 := Nat.pos_of_ne_zero hne
    have hb0 : buttonStateNow
        { _pin := pin, _timeHold := 0, _pullUP := pu, _stateButton := 0,
          _buttonStateWas := true, _buttonStateNowLong := false, _msButtonState := ms }
        high = true := hb
    simp [read, isHold, hb0, hpos]

/-- Instance of C14, amended: the legacy object with hold time 0, pressed at
100 ms and polled again at 101 ms, reports no release and reports the long
hold. -/
theorem zero_hold_no_release_witness :
    exZeroPressed._timeHold = 0 ∧
    justReleased (read exZeroPressed 101 false) = false ∧
    isHold (read exZeroPressed 101 false) = true :=
  ⟨by decide,
    (zero_hold_no_release exZeroPressed 101 false (by decide)).2.2.1,
    (zero_hold_no_release exZeroPressed 101 false (by decide)).2.2.2
      (by decide) (by decide) (by decide) (by decide)⟩

end TroykaButtonLegacy
